import Mathlib

/-!
Verification of the checkpoint finality state machine of the dualapproval
module (nexus-chain/nexus-miner): data model, deterministic hashing,
miner registry, approval pipeline, quorum finalization and expiry.

The Go sources are shallowly embedded: `uint64`/`uint32` become `Nat` with
explicit wraparound where overflow is possible, `int64` heights become `Int`,
the cosmos KV store becomes an association-list state record, and fallible
keeper methods return their mutated state together with an `Except` result.
SHA-256 (used by `ComputeCheckpointHash` and `computeResultHash` through Go's
`crypto/sha256` + `hex.EncodeToString`) is embedded executably over `Nat`
words, so concrete hash facts can be settled by evaluation.
-/

set_option maxRecDepth 200000
set_option maxHeartbeats 1000000

namespace DualApproval

/-! ## SHA-256 over `Nat` words (FIPS 180-4), with lowercase hex output -/

/-- Truncate a natural number to a 32-bit word, mirroring `uint32` wraparound. -/
def w32 (x : Nat) : Nat := x % 4294967296

/-- Right rotation of a 32-bit word by `n` bits. -/
def rotr32 (n x : Nat) : Nat := w32 ((x >>> n) ||| (x <<< (32 - n)))

/-- SHA-256 choice function `Ch(x,y,z)`. -/
def sha2Ch (x y z : Nat) : Nat := (x &&& y) ^^^ ((x ^^^ 4294967295) &&& z)

/-- SHA-256 majority function `Maj(x,y,z)`. -/
def sha2Maj (x y z : Nat) : Nat := (x &&& y) ^^^ (x &&& z) ^^^ (y &&& z)

/-- SHA-256 `Σ₀`. -/
def sha2S0 (x : Nat) : Nat := rotr32 2 x ^^^ rotr32 13 x ^^^ rotr32 22 x

/-- SHA-256 `Σ₁`. -/
def sha2S1 (x : Nat) : Nat := rotr32 6 x ^^^ rotr32 11 x ^^^ rotr32 25 x

/-- SHA-256 `σ₀`. -/
def sha2s0 (x : Nat) : Nat := rotr32 7 x ^^^ rotr32 18 x ^^^ (x >>> 3)

/-- SHA-256 `σ₁`. -/
def sha2s1 (x : Nat) : Nat := rotr32 17 x ^^^ rotr32 19 x ^^^ (x >>> 10)

/-- The 64 SHA-256 round constants (FIPS 180-4 §4.2.2), written in decimal. -/
def sha2K : List Nat :=
  [1116352408, 1899447441, 3049323471, 3921009573, 961987163,
   1508970993, 2453635748, 2870763221, 3624381080, 310598401,
   607225278, 1426881987, 1925078388, 2162078206, 2614888103,
   3248222580, 3835390401, 4022224774, 264347078, 604807628,
   770255983, 1249150122, 1555081692, 1996064986, 2554220882,
   2821834349, 2952996808, 3210313671, 3336571891, 3584528711,
   113926993, 338241895, 666307205, 773529912, 1294757372,
   1396182291, 1695183700, 1986661051, 2177026350, 2456956037,
   2730485921, 2820302411, 3259730800, 3345764771, 3516065817,
   3600352804, 4094571909, 275423344, 430227734, 506948616,
   659060556, 883997877, 958139571, 1322822218, 1537002063,
   1747873779, 1955562222, 2024104815, 2227730452, 2361852424,
   2428436474, 2756734187, 3204031479, 3329325298]

/-- The eight SHA-256 initial hash values (FIPS 180-4 §5.3.3), in decimal. -/
def sha2IV : List Nat :=
  [1779033703, 3144134277, 1013904242, 2773480762,
   1359893119, 2600822924, 528734635, 1541459225]

/-- FIPS 180-4 §5.1.1 padding: append `0x80`, zero bytes, then the 64-bit
big-endian bit length, reaching a multiple of 64 bytes. -/
def sha2Pad (msg : List Nat) : List Nat :=
  let len := msg.length
  let zeros := (120 - (len + 1) % 64) % 64
  let bitLen := 8 * len
  msg ++ [0x80] ++ List.replicate zeros 0 ++
    ((List.range 8).map fun i => (bitLen >>> (8 * (7 - i))) % 256)

/-- The sixteen big-endian 32-bit words of one 64-byte block. -/
def blockWords (block : List Nat) : List Nat :=
  (List.range 16).map fun i =>
    (block.getD (4 * i) 0) * 16777216 + (block.getD (4 * i + 1) 0) * 65536 +
      (block.getD (4 * i + 2) 0) * 256 + block.getD (4 * i + 3) 0

/-- Extend sixteen message words to the 64-entry SHA-256 message schedule. -/
def scheduleWords (ws : List Nat) : List Nat :=
  (List.range 48).foldl
    (fun acc i =>
      acc ++ [w32 (sha2s1 (acc.getD (i + 14) 0) + acc.getD (i + 9) 0 +
        sha2s0 (acc.getD (i + 1) 0) + acc.getD i 0)])
    ws

/-- One round of the SHA-256 compression loop; the state is the eight working
variables `a…h` in order, paired with the round constant and schedule word. -/
def sha2Round (st : List Nat) (kw : Nat × Nat) : List Nat :=
  let a := st.getD 0 0
  let b := st.getD 1 0
  let c := st.getD 2 0
  let d := st.getD 3 0
  let e := st.getD 4 0
  let f := st.getD 5 0
  let g := st.getD 6 0
  let h := st.getD 7 0
  let t1 := w32 (h + sha2S1 e + sha2Ch e f g + kw.1 + kw.2)
  let t2 := w32 (sha2S0 a + sha2Maj a b c)
  [w32 (t1 + t2), a, b, c, w32 (d + t1), e, f, g]

/-- Compress one 64-byte block into the running eight-word hash state. -/
def sha2Compress (st : List Nat) (block : List Nat) : List Nat :=
  let ws := scheduleWords (blockWords block)
  let final := (sha2K.zip ws).foldl sha2Round st
  (List.range 8).map fun i => w32 (st.getD i 0 + final.getD i 0)

/-- SHA-256 digest of a byte sequence, as eight 32-bit words. -/
def sha256Words (msg : List Nat) : List Nat :=
  let padded := sha2Pad msg
  let blocks := (List.range (padded.length / 64)).map fun i =>
    (padded.drop (64 * i)).take 64
  blocks.foldl sha2Compress sha2IV

/-- A nibble as a lowercase hexadecimal character. -/
def hexDigit (n : Nat) : Char :=
  if n < 10 then Char.ofNat (48 + n) else Char.ofNat (87 + n)

/-- A 32-bit word as eight lowercase hexadecimal characters. -/
def wordHex (x : Nat) : List Char :=
  (List.range 8).map fun i => hexDigit ((x >>> (4 * (7 - i))) % 16)

/-- UTF-8 encoding of a single code point, as byte values. -/
def utf8Bytes (c : Nat) : List Nat :=
  if c < 128 then [c]
  else if c < 2048 then [192 + c / 64, 128 + c % 64]
  else if c < 65536 then [224 + c / 4096, 128 + c / 64 % 64, 128 + c % 64]
  else [240 + c / 262144, 128 + c / 4096 % 64, 128 + c / 64 % 64, 128 + c % 64]

/-- The UTF-8 bytes of a string, mirroring Go `[]byte(s)`. -/
def strBytes (s : String) : List Nat :=
  (s.data.map fun ch => utf8Bytes ch.toNat).flatten

/-- Lowercase hexadecimal SHA-256 digest of a string, mirroring Go
`hex.EncodeToString(sha256.Sum256([]byte(s))[:])`. -/
def sha256Hex (s : String) : String :=
  String.mk ((sha256Words (strBytes s)).map wordHex).flatten

/-! ## Data model (`x/dualapproval/types`) -/

/-- `CheckpointInterval`: checkpoints are created every 200 blocks. -/
def CheckpointInterval : Int := 200

/-- `MinCheckpointSigners`: minimum miners needed to finalize a checkpoint. -/
def MinCheckpointSigners : Nat := 5

/-- `CheckpointThreshold`: percentage of active miners required (67%). -/
def CheckpointThreshold : Nat := 67

/-- `CheckpointStatus`: the state of a checkpoint. -/
inductive CheckpointStatus where
  | pending
  | approved
  | finalized
  | expired
deriving DecidableEq, Repr

/-- `DockingJob`: the work miners must complete. `Seed` is a `uint32`. -/
structure DockingJob where
  jobID : String
  targetID : String
  ligandID : String
  ligandHash : String
  seed : Nat
  assigned : Bool
deriving DecidableEq, Repr

/-- `DockingResult`: the verifiable output from a miner. -/
structure DockingResult where
  jobID : String
  affinity : String
  poseHash : String
  admetHash : String
  resultHash : String
deriving DecidableEq, Repr

/-- `MinerApproval`: a miner's signature on a checkpoint. Timestamps are
opaque; they are modelled as `Nat`. -/
structure MinerApproval where
  minerAddress : String
  checkpointHash : String
  dockingResult : DockingResult
  signature : String
  timestamp : Nat
deriving DecidableEq, Repr

/-- `Checkpoint`: a miner-approved finality point. `Height` is an `int64`. -/
structure Checkpoint where
  height : Int
  blockHash : String
  validatorSetHash : String
  status : CheckpointStatus
  createdAt : Nat
  finalizedAt : Option Nat
  dockingJobs : List DockingJob
  minerApprovals : List MinerApproval
deriving DecidableEq, Repr

/-- `Miner`: a registered miner. `ComputePower`, `JobsCompleted` and
`Reputation` are `uint64`. -/
structure Miner where
  address : String
  publicKey : String
  computePower : Nat
  jobsCompleted : Nat
  reputation : Nat
  registeredAt : Nat
  lastActiveAt : Nat
  slashed : Bool
deriving DecidableEq, Repr

/-- The `uint64` modulus, for the unguarded increments of miner counters. -/
def uint64Mod : Nat := 18446744073709551616

/-- Go `(c *Checkpoint) ComputeCheckpointHash`: SHA-256 of
`fmt.Sprintf("%d|%s|%s|%d", c.Height, c.BlockHash, c.ValidatorSetHash,
len(c.DockingJobs))`, hex encoded. -/
def Checkpoint.ComputeCheckpointHash (c : Checkpoint) : String :=
  sha256Hex (toString c.height ++ "|" ++ c.blockHash ++ "|" ++
    c.validatorSetHash ++ "|" ++ toString c.dockingJobs.length)

/-- Go `(c *Checkpoint) ApprovalPercentage`: integer-truncating percentage of
approvals among `totalMiners`, guarded to return 0 when `totalMiners == 0`. -/
def Checkpoint.ApprovalPercentage (c : Checkpoint) (totalMiners : Nat) : Nat :=
  if totalMiners = 0 then 0
  else c.minerApprovals.length * 100 / totalMiners

/-- Go `(c *Checkpoint) CanFinalize`: both the absolute signer floor and the
percentage threshold must hold. -/
def Checkpoint.CanFinalize (c : Checkpoint) (totalMiners : Nat) : Bool :=
  decide (MinCheckpointSigners ≤ c.minerApprovals.length) &&
    decide (CheckpointThreshold ≤ c.ApprovalPercentage totalMiners)

/-- Go `(m *Miner) CanParticipate`: not slashed and reputation at least 100. -/
def Miner.CanParticipate (m : Miner) : Bool :=
  !m.slashed && decide (100 ≤ m.reputation)

/-- Go `computeResultHash`: SHA-256 of
`fmt.Sprintf("%s|%s|%s|%s", JobID, Affinity, PoseHash, ADMETHash)`, hex
encoded. -/
def computeResultHash (result : DockingResult) : String :=
  sha256Hex (result.jobID ++ "|" ++ result.affinity ++ "|" ++
    result.poseHash ++ "|" ++ result.admetHash)

/-- The two failure cases of `VerifyDockingResult`. -/
inductive VerifyError where
  | jobNotInCheckpoint
  | resultHashMismatch
deriving DecidableEq, Repr

/-- Go `VerifyDockingResult`: the result's job must be one of the checkpoint's
docking jobs, and the result hash must match the recomputed hash. -/
def VerifyDockingResult (result : DockingResult) (checkpoint : Checkpoint) :
    Except VerifyError Unit :=
  if checkpoint.dockingJobs.any fun job => job.jobID == result.jobID then
    if result.resultHash = computeResultHash result then Except.ok ()
    else Except.error VerifyError.resultHashMismatch
  else Except.error VerifyError.jobNotInCheckpoint

/-! ## Keeper state (the cosmos KV store, as association lists) -/

/-- Read a key from an association-list store (`store.Get`). -/
def getEntry {α β : Type} [DecidableEq α] : List (α × β) → α → Option β
  | [], _ => none
  | (k', v) :: rest, k => if k' = k then some v else getEntry rest k

/-- Write a key to an association-list store (`store.Set` overwrites). -/
def setEntry {α β : Type} [DecidableEq α] : List (α × β) → α → β → List (α × β)
  | [], k, v => [(k, v)]
  | (k', v') :: rest, k, v =>
      if k' = k then (k, v) :: rest else (k', v') :: setEntry rest k v

/-- The keeper's persisted state: `checkpoint:<height>` records, the
`checkpoint:pending` and `checkpoint:latest` pointers, `miner:<address>`
records, the `miners:count` counter, and the `job:pending:` queue. -/
structure ChainState where
  checkpoints : List (Int × Checkpoint)
  pendingHeight : Option Int
  latestHeight : Option Int
  miners : List (String × Miner)
  minerCount : Nat
  jobQueue : List DockingJob
deriving DecidableEq, Repr

/-- The empty store. -/
def initialState : ChainState :=
  { checkpoints := [], pendingHeight := none, latestHeight := none,
    miners := [], minerCount := 0, jobQueue := [] }

/-- Go `GetCheckpoint`: read `checkpoint:<height>`. -/
def getCheckpoint (s : ChainState) (height : Int) : Option Checkpoint :=
  getEntry s.checkpoints height

/-- Go `SaveCheckpoint`: write the checkpoint under its own height. -/
def saveCheckpoint (s : ChainState) (cp : Checkpoint) : ChainState :=
  { s with checkpoints := setEntry s.checkpoints cp.height cp }

/-- Go `GetMiner`: read `miner:<address>`. -/
def getMiner (s : ChainState) (address : String) : Option Miner :=
  getEntry s.miners address

/-- Go `SetMiner`: write the miner under its own address. -/
def setMiner (s : ChainState) (m : Miner) : ChainState :=
  { s with miners := setEntry s.miners m.address m }

/-- Go `GetActiveMinerCount`: the `miners:count` counter (0 when absent). -/
def GetActiveMinerCount (s : ChainState) : Nat := s.minerCount

/-- Go `incrementMinerCount`. -/
def incrementMinerCount (s : ChainState) : ChainState :=
  { s with minerCount := GetActiveMinerCount s + 1 }

/-- Go `GetPendingCheckpoint`: follow the `checkpoint:pending` pointer to the
stored checkpoint; note there is no status filter. -/
def getPendingCheckpoint (s : ChainState) : Option Checkpoint :=
  s.pendingHeight.bind (getCheckpoint s)

/-- Go `GetPendingDockingJobs`: up to `limit` queued jobs. -/
def GetPendingDockingJobs (s : ChainState) (limit : Nat) : List DockingJob :=
  s.jobQueue.take limit

/-- Go `FinalizeCheckpoint`: set status `FINALIZED`, stamp `FinalizedAt`, save
the checkpoint and update the `checkpoint:latest` pointer. The
`checkpoint:pending` pointer is left untouched. -/
def FinalizeCheckpoint (s : ChainState) (now : Nat) (checkpoint : Checkpoint) :
    ChainState :=
  let cp := { checkpoint with status := CheckpointStatus.finalized,
                              finalizedAt := some now }
  { saveCheckpoint s cp with latestHeight := some cp.height }

/-- The failure case of `RegisterMiner`. -/
inductive RegisterError where
  | alreadyRegistered
deriving DecidableEq, Repr

/-- Go `RegisterMiner`: reject a known address; otherwise store a fresh miner
with reputation 500 and bump `miners:count`. -/
def RegisterMiner (s : ChainState) (address pubKey : String) (now : Nat) :
    ChainState × Except RegisterError Unit :=
  if (getMiner s address).isSome then
    (s, Except.error RegisterError.alreadyRegistered)
  else
    let m : Miner :=
      { address := address, publicKey := pubKey, computePower := 0,
        jobsCompleted := 0, reputation := 500, registeredAt := now,
        lastActiveAt := now, slashed := false }
    (incrementMinerCount (setMiner s m), Except.ok ())

/-- Go `SlashMiner`: best-effort penalty — absent miner is a no-op; reputation
drops by 200 when at least 200, otherwise floors at 0 with `Slashed` set. -/
def SlashMiner (s : ChainState) (address reason : String) : ChainState :=
  match getMiner s address with
  | none => s
  | some m =>
      let m' :=
        if 200 ≤ m.reputation then { m with reputation := m.reputation - 200 }
        else { m with reputation := 0, slashed := true }
      setMiner s m'

/-- The failure cases of `SubmitMinerApproval`, in pipeline order. -/
inductive SubmitError where
  | minerNotRegistered
  | minerNotEligible
  | noPendingCheckpoint
  | checkpointHashMismatch
  | invalidDockingResult (e : VerifyError)
  | duplicateApproval
deriving DecidableEq, Repr

/-- Go `SubmitMinerApproval`: the full validation pipeline — miner lookup,
eligibility, pending-checkpoint lookup, checkpoint-hash binding, docking
result verification (slashing on failure), duplicate check, append, miner
stat updates, then the quorum check deciding finalize-or-save. -/
def SubmitMinerApproval (s : ChainState) (now : Nat)
    (approval : MinerApproval) : ChainState × Except SubmitError Unit :=
  match getMiner s approval.minerAddress with
  | none => (s, Except.error SubmitError.minerNotRegistered)
  | some miner =>
    if !miner.CanParticipate then
      (s, Except.error SubmitError.minerNotEligible)
    else
      match getPendingCheckpoint s with
      | none => (s, Except.error SubmitError.noPendingCheckpoint)
      | some checkpoint =>
        if approval.checkpointHash ≠ checkpoint.ComputeCheckpointHash then
          (s, Except.error SubmitError.checkpointHashMismatch)
        else
          match VerifyDockingResult approval.dockingResult checkpoint with
          | Except.error e =>
              (SlashMiner s approval.minerAddress "invalid_result",
               Except.error (SubmitError.invalidDockingResult e))
          | Except.ok _ =>
            if checkpoint.minerApprovals.any
                (fun ex => ex.minerAddress == approval.minerAddress) then
              (s, Except.error SubmitError.duplicateApproval)
            else
              let cp := { checkpoint with
                minerApprovals := checkpoint.minerApprovals ++ [approval] }
              let rep := (miner.reputation + 10) % uint64Mod
              let m' := { miner with
                jobsCompleted := (miner.jobsCompleted + 1) % uint64Mod,
                lastActiveAt := now,
                reputation := if 1000 < rep then 1000 else rep }
              let s' := setMiner s m'
              let totalMiners := GetActiveMinerCount s'
              if cp.CanFinalize totalMiners then
                (FinalizeCheckpoint s' now cp, Except.ok ())
              else
                (saveCheckpoint s' cp, Except.ok ())

/-- Go `CreateCheckpoint`: reject an existing height; otherwise store a fresh
`PENDING` checkpoint holding up to 10 queued jobs and no approvals. -/
def CreateCheckpoint (s : ChainState) (height : Int)
    (blockHash valSetHash : String) (now : Nat) :
    ChainState × Option Checkpoint :=
  if (getCheckpoint s height).isSome then (s, none)
  else
    let jobs := GetPendingDockingJobs s 10
    let cp : Checkpoint :=
      { height := height, blockHash := blockHash,
        validatorSetHash := valSetHash, status := CheckpointStatus.pending,
        createdAt := now, finalizedAt := none, dockingJobs := jobs,
        minerApprovals := [] }
    (saveCheckpoint s cp, some cp)

/-- Go `SubmitDockingJob`: enqueue a job under `job:pending:<jobID>`. -/
def SubmitDockingJob (s : ChainState) (job : DockingJob) : ChainState :=
  { s with jobQueue := s.jobQueue ++ [job] }

/-- Go `expireOldCheckpoints` (nexus-miner keeper): if the tracked pending
checkpoint is over 100 blocks old and still `PENDING`, persist it as
`EXPIRED`. -/
def expireOldCheckpoints (s : ChainState) (currentHeight : Int) : ChainState :=
  match getPendingCheckpoint s with
  | none => s
  | some checkpoint =>
      if currentHeight - checkpoint.height > 100 ∧
          checkpoint.status = CheckpointStatus.pending then
        saveCheckpoint s { checkpoint with status := CheckpointStatus.expired }
      else s

/-- Go `EndBlocker` (nexus-miner keeper): every `CheckpointInterval` blocks
create a checkpoint and mark it pending, then run the expiry pass. -/
def EndBlocker (s : ChainState) (height : Int)
    (blockHash valSetHash : String) (now : Nat) : ChainState :=
  let s' :=
    if height % CheckpointInterval = 0 ∧ 0 < height then
      match CreateCheckpoint s height blockHash valSetHash now with
      | (s'', some cp) => { s'' with pendingHeight := some cp.height }
      | (s'', none) => s''
    else s
  expireOldCheckpoints s' height

/-- States reachable from the empty store through the keeper's public
operations (registration, approval submission, slashing, job submission and
the end-of-block hook). -/
inductive Reachable : ChainState → Prop where
  | init : Reachable initialState
  | register (s : ChainState) (address pubKey : String) (now : Nat) :
      Reachable s → Reachable (RegisterMiner s address pubKey now).1
  | submit (s : ChainState) (now : Nat) (approval : MinerApproval) :
      Reachable s → Reachable (SubmitMinerApproval s now approval).1
  | slash (s : ChainState) (address reason : String) :
      Reachable s → Reachable (SlashMiner s address reason)
  | submitJob (s : ChainState) (job : DockingJob) :
      Reachable s → Reachable (SubmitDockingJob s job)
  | endBlock (s : ChainState) (height : Int) (blockHash valSetHash : String)
      (now : Nat) : Reachable s → Reachable (EndBlocker s height blockHash valSetHash now)

/-! ## Spec-side readings, for refinement comparisons -/

/-- The spec's reading of the checkpoint hash: a function of exactly the
height, block hash, validator-set hash and job count, joined by the field
separator and hashed once. -/
def specCheckpointHashOf (height : Int) (blockHash valSetHash : String)
    (jobCount : Nat) : String :=
  sha256Hex (String.intercalate "|"
    [toString height, blockHash, valSetHash, toString jobCount])

/-- The spec's reading of the result hash: the single SHA-256 pass over the
separator-joined `jobID`, `affinity`, `poseHash`, `admetHash`, in order. -/
def specResultHash (result : DockingResult) : String :=
  sha256Hex (String.intercalate "|"
    [result.jobID, result.affinity, result.poseHash, result.admetHash])

/-! ## Store lemmas -/

theorem getEntry_setEntry {α β : Type} [DecidableEq α]
    (l : List (α × β)) (k k' : α) (v : β) :
    getEntry (setEntry l k v) k' = if k = k' then some v else getEntry l k' := by
  induction l with
  | nil => simp [setEntry, getEntry]
  | cons hd tl ih =>
      obtain ⟨k₀, v₀⟩ := hd
      by_cases h0 : k₀ = k
      · subst h0
        simp only [setEntry, if_pos rfl, getEntry]
        split <;> simp_all [getEntry]
      · simp only [setEntry, if_neg h0, getEntry, ih]
        by_cases h1 : k₀ = k' <;> by_cases h2 : k = k' <;> simp_all

@[simp] theorem getMiner_saveCheckpoint (s : ChainState) (cp : Checkpoint)
    (a : String) : getMiner (saveCheckpoint s cp) a = getMiner s a := rfl

@[simp] theorem getMiner_incrementMinerCount (s : ChainState) (a : String) :
    getMiner (incrementMinerCount s) a = getMiner s a := rfl

@[simp] theorem getCheckpoint_setMiner (s : ChainState) (m : Miner) (h : Int) :
    getCheckpoint (setMiner s m) h = getCheckpoint s h := rfl

@[simp] theorem getCheckpoint_incrementMinerCount (s : ChainState) (h : Int) :
    getCheckpoint (incrementMinerCount s) h = getCheckpoint s h := rfl

@[simp] theorem getCheckpoint_submitDockingJob (s : ChainState)
    (job : DockingJob) (h : Int) :
    getCheckpoint (SubmitDockingJob s job) h = getCheckpoint s h := rfl

@[simp] theorem getMiner_submitDockingJob (s : ChainState) (job : DockingJob)
    (a : String) : getMiner (SubmitDockingJob s job) a = getMiner s a := rfl

theorem getCheckpoint_saveCheckpoint (s : ChainState) (cp : Checkpoint)
    (h : Int) :
    getCheckpoint (saveCheckpoint s cp) h =
      if cp.height = h then some cp else getCheckpoint s h :=
  getEntry_setEntry ..

theorem getMiner_setMiner (s : ChainState) (m : Miner) (a : String) :
    getMiner (setMiner s m) a =
      if m.address = a then some m else getMiner s a :=
  getEntry_setEntry ..

@[simp] theorem getMiner_finalizeCheckpoint (s : ChainState) (now : Nat)
    (cp : Checkpoint) (a : String) :
    getMiner (FinalizeCheckpoint s now cp) a = getMiner s a := rfl

theorem getCheckpoint_finalizeCheckpoint (s : ChainState) (now : Nat)
    (cp : Checkpoint) (h : Int) :
    getCheckpoint (FinalizeCheckpoint s now cp) h =
      if cp.height = h then
        some { cp with status := CheckpointStatus.finalized,
                       finalizedAt := some now }
      else getCheckpoint s h :=
  getCheckpoint_saveCheckpoint ..

theorem getCheckpoint_of_pending {s : ChainState} {cp : Checkpoint}
    (h : getPendingCheckpoint s = some cp) :
    ∃ hp : Int, getCheckpoint s hp = some cp := by
  unfold getPendingCheckpoint at h
  cases hph : s.pendingHeight with
  | none => simp [hph] at h
  | some ph => exact ⟨ph, by simpa [hph] using h⟩

/-! ## Pipeline reduction lemmas for `SubmitMinerApproval` -/

section Pipeline

variable {s : ChainState} {now : Nat} {approval : MinerApproval}
  {miner : Miner} {cp : Checkpoint}

theorem submit_hash_mismatch
    (hm : getMiner s approval.minerAddress = some miner)
    (he : miner.CanParticipate = true)
    (hp : getPendingCheckpoint s = some cp)
    (hne : approval.checkpointHash ≠ cp.ComputeCheckpointHash) :
    SubmitMinerApproval s now approval =
      (s, Except.error SubmitError.checkpointHashMismatch) := by
  unfold SubmitMinerApproval
  simp [hm, he, hp, hne]

theorem submit_verify_error {e : VerifyError}
    (hm : getMiner s approval.minerAddress = some miner)
    (he : miner.CanParticipate = true)
    (hp : getPendingCheckpoint s = some cp)
    (hh : approval.checkpointHash = cp.ComputeCheckpointHash)
    (hv : VerifyDockingResult approval.dockingResult cp = Except.error e) :
    SubmitMinerApproval s now approval =
      (SlashMiner s approval.minerAddress "invalid_result",
       Except.error (SubmitError.invalidDockingResult e)) := by
  unfold SubmitMinerApproval
  simp [hm, he, hp, hh, hv]

theorem submit_duplicate
    (hm : getMiner s approval.minerAddress = some miner)
    (he : miner.CanParticipate = true)
    (hp : getPendingCheckpoint s = some cp)
    (hh : approval.checkpointHash = cp.ComputeCheckpointHash)
    (hv : VerifyDockingResult approval.dockingResult cp = Except.ok ())
    (hdup : cp.minerApprovals.any
      (fun ex => ex.minerAddress == approval.minerAddress) = true) :
    SubmitMinerApproval s now approval =
      (s, Except.error SubmitError.duplicateApproval) := by
  unfold SubmitMinerApproval
  simp [hm, he, hp, hh, hv, hdup]

theorem submit_fresh
    (hm : getMiner s approval.minerAddress = some miner)
    (he : miner.CanParticipate = true)
    (hp : getPendingCheckpoint s = some cp)
    (hh : approval.checkpointHash = cp.ComputeCheckpointHash)
    (hv : VerifyDockingResult approval.dockingResult cp = Except.ok ())
    (hdup : cp.minerApprovals.any
      (fun ex => ex.minerAddress == approval.minerAddress) = false) :
    SubmitMinerApproval s now approval =
      (let cp' := { cp with
          minerApprovals := cp.minerApprovals ++ [approval] }
       let rep := (miner.reputation + 10) % uint64Mod
       let m' := { miner with
          jobsCompleted := (miner.jobsCompleted + 1) % uint64Mod,
          lastActiveAt := now,
          reputation := if 1000 < rep then 1000 else rep }
       let s' := setMiner s m'
       if cp'.CanFinalize (GetActiveMinerCount s') then
         (FinalizeCheckpoint s' now cp', Except.ok ())
       else (saveCheckpoint s' cp', Except.ok ())) := by
  unfold SubmitMinerApproval
  simp [hm, he, hp, hh, hv, hdup]

end Pipeline

/-! ## State invariants over reachable states -/

/-- Every stored miner's reputation is at most 1000. -/
def MinersClamped (s : ChainState) : Prop :=
  ∀ a m, getMiner s a = some m → m.reputation ≤ 1000

/-- No stored checkpoint holds two approvals by the same miner address. -/
def ApprovalsNodup (s : ChainState) : Prop :=
  ∀ h cp, getCheckpoint s h = some cp →
    (cp.minerApprovals.map fun ap => ap.minerAddress).Nodup

/-- The joint store invariant. -/
def StateInv (s : ChainState) : Prop := MinersClamped s ∧ ApprovalsNodup s

theorem stateInv_init : StateInv initialState := by
  constructor <;> intro a m h <;> simp [getMiner, getCheckpoint, getEntry,
    initialState] at h

theorem minersClamped_setMiner {s : ChainState} {m : Miner}
    (h : MinersClamped s) (hm : m.reputation ≤ 1000) :
    MinersClamped (setMiner s m) := by
  intro a m' hm'
  rw [getMiner_setMiner] at hm'
  by_cases ha : m.address = a
  · rw [if_pos ha] at hm'
    cases hm'
    exact hm
  · rw [if_neg ha] at hm'
    exact h a m' hm'

theorem approvalsNodup_saveCheckpoint {s : ChainState} {cp : Checkpoint}
    (h : ApprovalsNodup s)
    (hcp : (cp.minerApprovals.map fun ap => ap.minerAddress).Nodup) :
    ApprovalsNodup (saveCheckpoint s cp) := by
  intro hh cp' hcp'
  rw [getCheckpoint_saveCheckpoint] at hcp'
  by_cases he : cp.height = hh
  · rw [if_pos he] at hcp'
    cases hcp'
    exact hcp
  · rw [if_neg he] at hcp'
    exact h hh cp' hcp'

theorem stateInv_register (s : ChainState) (address pubKey : String)
    (now : Nat) (h : StateInv s) :
    StateInv (RegisterMiner s address pubKey now).1 := by
  obtain ⟨hm, hc⟩ := h
  unfold RegisterMiner
  split
  · exact ⟨hm, hc⟩
  · exact ⟨fun a m hma => by
      rw [getMiner_incrementMinerCount, getMiner_setMiner] at hma
      split at hma
      · cases hma; simp
      · exact hm a m hma,
      hc⟩

theorem stateInv_slash (s : ChainState) (address reason : String)
    (h : StateInv s) : StateInv (SlashMiner s address reason) := by
  obtain ⟨hm, hc⟩ := h
  unfold SlashMiner
  cases hmi : getMiner s address with
  | none => exact ⟨hm, hc⟩
  | some m =>
      refine ⟨minersClamped_setMiner hm ?_, hc⟩
      split
      · show m.reputation - 200 ≤ 1000
        have := hm address m hmi
        omega
      · show (0 : Nat) ≤ 1000
        simp

theorem stateInv_submitJob (s : ChainState) (job : DockingJob)
    (h : StateInv s) : StateInv (SubmitDockingJob s job) := by
  obtain ⟨hm, hc⟩ := h
  exact ⟨fun a m hma => hm a m hma, fun hh cp hcp => hc hh cp hcp⟩

theorem stateInv_expire (t : ChainState) (height : Int) (ht : StateInv t) :
    StateInv (expireOldCheckpoints t height) := by
  obtain ⟨htm, htc⟩ := ht
  unfold expireOldCheckpoints
  cases hp : getPendingCheckpoint t with
  | none => exact ⟨htm, htc⟩
  | some cp =>
      simp only
      split
      · obtain ⟨hh, hcp⟩ := getCheckpoint_of_pending hp
        exact ⟨fun a m hma => htm a m hma,
          approvalsNodup_saveCheckpoint htc (htc hh cp hcp)⟩
      · exact ⟨htm, htc⟩

theorem stateInv_create (s : ChainState) (height : Int)
    (blockHash valSetHash : String) (now : Nat) (h : StateInv s) :
    StateInv (CreateCheckpoint s height blockHash valSetHash now).1 := by
  obtain ⟨hm, hc⟩ := h
  unfold CreateCheckpoint
  split
  · exact ⟨hm, hc⟩
  · exact ⟨fun a m hma => hm a m hma,
      approvalsNodup_saveCheckpoint hc (by simp)⟩

theorem stateInv_pendingPtr (s : ChainState) (ph : Option Int)
    (h : StateInv s) : StateInv { s with pendingHeight := ph } :=
  ⟨fun a m hma => h.1 a m hma, fun hh cp hcp => h.2 hh cp hcp⟩

theorem stateInv_endBlock (s : ChainState) (height : Int)
    (blockHash valSetHash : String) (now : Nat) (h : StateInv s) :
    StateInv (EndBlocker s height blockHash valSetHash now) := by
  unfold EndBlocker
  simp only
  apply stateInv_expire
  split
  · have h' := stateInv_create s height blockHash valSetHash now h
    cases hcc : CreateCheckpoint s height blockHash valSetHash now with
    | mk s'' ocp =>
        rw [hcc] at h'
        cases ocp with
        | none => exact h'
        | some cp => exact stateInv_pendingPtr s'' (some cp.height) h'
  · exact h

theorem stateInv_finalize_path (s : ChainState) (now : Nat) (cp' : Checkpoint)
    (m' : Miner) (hm : MinersClamped s) (hc : ApprovalsNodup s)
    (hrep : m'.reputation ≤ 1000)
    (hnodup : (cp'.minerApprovals.map fun ap => ap.minerAddress).Nodup) :
    StateInv (FinalizeCheckpoint (setMiner s m') now cp') := by
  constructor
  · intro a m hma
    rw [getMiner_finalizeCheckpoint, getMiner_setMiner] at hma
    split at hma
    · cases hma; exact hrep
    · exact hm a m hma
  · intro hh c hcpc
    rw [getCheckpoint_finalizeCheckpoint, getCheckpoint_setMiner] at hcpc
    split at hcpc
    · cases hcpc; exact hnodup
    · exact hc hh c hcpc

theorem stateInv_save_path (s : ChainState) (cp' : Checkpoint)
    (m' : Miner) (hm : MinersClamped s) (hc : ApprovalsNodup s)
    (hrep : m'.reputation ≤ 1000)
    (hnodup : (cp'.minerApprovals.map fun ap => ap.minerAddress).Nodup) :
    StateInv (saveCheckpoint (setMiner s m') cp') := by
  constructor
  · intro a m hma
    rw [getMiner_saveCheckpoint, getMiner_setMiner] at hma
    split at hma
    · cases hma; exact hrep
    · exact hm a m hma
  · intro hh c hcpc
    rw [getCheckpoint_saveCheckpoint, getCheckpoint_setMiner] at hcpc
    split at hcpc
    · cases hcpc; exact hnodup
    · exact hc hh c hcpc

theorem stateInv_submit (s : ChainState) (now : Nat)
    (approval : MinerApproval) (h : StateInv s) :
    StateInv (SubmitMinerApproval s now approval).1 := by
  obtain ⟨hm, hc⟩ := h
  unfold SubmitMinerApproval
  cases hmi : getMiner s approval.minerAddress with
  | none => exact ⟨hm, hc⟩
  | some miner =>
      simp only
      split
      · exact ⟨hm, hc⟩
      cases hp : getPendingCheckpoint s with
      | none => exact ⟨hm, hc⟩
      | some cp =>
          simp only
          split
          · exact ⟨hm, hc⟩
          cases hv : VerifyDockingResult approval.dockingResult cp with
          | error e =>
              show StateInv (SlashMiner s approval.minerAddress "invalid_result")
              exact stateInv_slash s approval.minerAddress "invalid_result" ⟨hm, hc⟩
          | ok u =>
              simp only
              split
              · exact ⟨hm, hc⟩
              · rename_i hdup
                have hnodup : ((cp.minerApprovals ++ [approval]).map
                    fun ap => ap.minerAddress).Nodup := by
                  obtain ⟨hh, hcp⟩ := getCheckpoint_of_pending hp
                  have hbase := hc hh cp hcp
                  have hnotmem : approval.minerAddress ∉
                      cp.minerApprovals.map fun ap => ap.minerAddress := by
                    intro hmem
                    apply hdup
                    simp only [List.mem_map] at hmem
                    obtain ⟨ex, hex, hexa⟩ := hmem
                    simp only [List.any_eq_true]
                    exact ⟨ex, hex, by simp [hexa]⟩
                  simp [List.nodup_append, hbase, hnotmem]
                split
                · split
                  · exact stateInv_finalize_path _ _ _ _ hm hc (by simp) hnodup
                  · exact stateInv_save_path _ _ _ hm hc (by simp) hnodup
                · rename_i hlt
                  split
                  · exact stateInv_finalize_path _ _ _ _ hm hc
                      (by simp only; omega) hnodup
                  · exact stateInv_save_path _ _ _ hm hc
                      (by simp only; omega) hnodup

theorem stateInv_reachable {s : ChainState} (h : Reachable s) : StateInv s := by
  induction h with
  | init => exact stateInv_init
  | register s address pubKey now _ ih => exact stateInv_register s address pubKey now ih
  | submit s now approval _ ih => exact stateInv_submit s now approval ih
  | slash s address reason _ ih => exact stateInv_slash s address reason ih
  | submitJob s job _ ih => exact stateInv_submitJob s job ih
  | endBlock s height blockHash valSetHash now _ ih =>
      exact stateInv_endBlock s height blockHash valSetHash now ih

/-! ## Concrete fixtures -/

/-- A docking job, as created by the job queue. -/
def job1 : DockingJob :=
  { jobID := "job-1", targetID := "6LU7", ligandID := "lig-1",
    ligandHash := "lh1", seed := 42, assigned := false }

/-- A second docking job. -/
def job2 : DockingJob :=
  { jobID := "job-2", targetID := "1ABC", ligandID := "lig-2",
    ligandHash := "lh2", seed := 7, assigned := true }

/-- A docking result for `job1` with an unset result hash. -/
def resBase : DockingResult :=
  { jobID := "job-1", affinity := "-7.5", poseHash := "ph",
    admetHash := "ah", resultHash := "" }

/-- A docking result whose hash is honestly recomputed from its fields. -/
def resOk : DockingResult := { resBase with resultHash := computeResultHash resBase }

/-- A docking result whose hash does not match its fields. -/
def resBad : DockingResult := { resBase with resultHash := "deadbeef" }

/-- A placeholder approval used only for counting. -/
def apDummy : MinerApproval :=
  { minerAddress := "m0", checkpointHash := "", dockingResult := resBase,
    signature := "", timestamp := 0 }

/-- A stored approval by the given address (content immaterial). -/
def apStored (a : String) : MinerApproval :=
  { minerAddress := a, checkpointHash := "h", dockingResult := resBase,
    signature := "", timestamp := 0 }

/-- The pending checkpoint at height 200 used throughout the scenarios. -/
def cp200 : Checkpoint :=
  { height := 200, blockHash := "bh", validatorSetHash := "vs",
    status := CheckpointStatus.pending, createdAt := 0, finalizedAt := none,
    dockingJobs := [job1], minerApprovals := [] }

/-- `cp200` with `n` placeholder approvals. -/
def cpApprovals (n : Nat) : Checkpoint :=
  { cp200 with minerApprovals := List.replicate n apDummy }

/-- `cp200` at a different height. -/
def cpOtherHeight : Checkpoint := { cp200 with height := 100 }

/-- `cp200` with a different block hash. -/
def cpOtherBlock : Checkpoint := { cp200 with blockHash := "bh2" }

/-- A checkpoint with two jobs. -/
def cpJobsA : Checkpoint :=
  { height := 300, blockHash := "bA", validatorSetHash := "vA",
    status := CheckpointStatus.pending, createdAt := 1, finalizedAt := none,
    dockingJobs := [job1, job2], minerApprovals := [] }

/-- `cpJobsA` with entirely different job contents (same count), and a
different approval list. -/
def cpJobsB : Checkpoint :=
  { cpJobsA with
    dockingJobs :=
      [{ jobID := "x-9", targetID := "9XYZ", ligandID := "lig-9",
         ligandHash := "lh9", seed := 999, assigned := true },
       { jobID := "x-8", targetID := "8XYZ", ligandID := "lig-8",
         ligandHash := "lh8", seed := 888, assigned := false }],
    minerApprovals := [apDummy] }

/-- `cpJobsA` with its two jobs swapped. -/
def cpJobsC : Checkpoint := { cpJobsA with dockingJobs := [job2, job1] }

/-- A registered miner at neutral reputation. -/
def minerA : Miner :=
  { address := "alice", publicKey := "pk", computePower := 0,
    jobsCompleted := 0, reputation := 500, registeredAt := 0,
    lastActiveAt := 0, slashed := false }

/-- A fresh miner record for the given address. -/
def mkMiner (a : String) : Miner := { minerA with address := a }

/-- A miner whose reputation is exactly 200. -/
def minerR200 : Miner := { mkMiner "carol" with reputation := 200 }

/-- A store holding miner `carol` at reputation 200. -/
def s200 : ChainState :=
  { initialState with miners := [("carol", minerR200)], minerCount := 1 }

/-- A store with `cp200` pending and miner `alice` registered. -/
def sBind : ChainState :=
  { checkpoints := [(200, cp200)], pendingHeight := some 200,
    latestHeight := none, miners := [("alice", minerA)], minerCount := 1,
    jobQueue := [] }

/-- A valid approval by `alice` bound to `cp200`. -/
def apAlice : MinerApproval :=
  { minerAddress := "alice", checkpointHash := cp200.ComputeCheckpointHash,
    dockingResult := resOk, signature := "s", timestamp := 5 }

/-- An approval by `alice` whose docking result hash is wrong. -/
def apBadResult : MinerApproval :=
  { minerAddress := "alice", checkpointHash := cp200.ComputeCheckpointHash,
    dockingResult := resBad, signature := "s", timestamp := 9 }

/-- An approval by `alice` carrying the hash of a different-height
checkpoint. -/
def apStale : MinerApproval :=
  { minerAddress := "alice", checkpointHash := cpOtherHeight.ComputeCheckpointHash,
    dockingResult := resOk, signature := "s", timestamp := 7 }

/-- `cp200` already holding `alice`'s approval. -/
def cpDup : Checkpoint := { cp200 with minerApprovals := [apAlice] }

/-- `sBind` with the already-approved checkpoint stored. -/
def sDup : ChainState := { sBind with checkpoints := [(200, cpDup)] }

/-- `cp200` already finalized, with five stored approvals. -/
def cpFin : Checkpoint :=
  { cp200 with
    status := CheckpointStatus.finalized
    finalizedAt := some 3
    minerApprovals := [apStored "m1", apStored "m2", apStored "m3",
      apStored "m4", apStored "m5"] }

/-- A fresh, eligible, correctly-hashing approval by `m6` for `cpFin`. -/
def apM6 : MinerApproval :=
  { minerAddress := "m6", checkpointHash := cpFin.ComputeCheckpointHash,
    dockingResult := resOk, signature := "s", timestamp := 9 }

/-- The store after `cpFin` finalized: the `checkpoint:pending` pointer still
references height 200 (nothing ever clears it), `m6` is registered and
eligible, and 7 miners are counted. -/
def sFin : ChainState :=
  { checkpoints := [(200, cpFin)], pendingHeight := some 200,
    latestHeight := some 200, miners := [("m6", mkMiner "m6")],
    minerCount := 7, jobQueue := [] }

/-! ## Hash-shape bridging lemmas -/

theorem computeResultHash_eq_spec (r : DockingResult) :
    computeResultHash r = specResultHash r := by
  unfold computeResultHash specResultHash
  congr 1

theorem checkpointHash_eq_specOf (c : Checkpoint) :
    c.ComputeCheckpointHash =
      specCheckpointHashOf c.height c.blockHash c.validatorSetHash
        c.dockingJobs.length := by
  unfold Checkpoint.ComputeCheckpointHash specCheckpointHashOf
  congr 1

/-! ## C4 helper lemmas -/

theorem expire_of_old {s : ChainState} {T : Int} {cp : Checkpoint}
    (hp : getPendingCheckpoint s = some cp)
    (hst : cp.status = CheckpointStatus.pending)
    (hT : T - cp.height > 100) :
    getCheckpoint (expireOldCheckpoints s T) cp.height =
      some { cp with status := CheckpointStatus.expired } := by
  unfold expireOldCheckpoints
  rw [hp]
  simp only
  rw [if_pos ⟨hT, hst⟩, getCheckpoint_saveCheckpoint, if_pos rfl]

theorem expire_of_young {s : ChainState} {T : Int} {cp : Checkpoint}
    (hp : getPendingCheckpoint s = some cp)
    (h : ¬(T - cp.height > 100 ∧ cp.status = CheckpointStatus.pending)) :
    expireOldCheckpoints s T = s := by
  unfold expireOldCheckpoints
  rw [hp]
  simp only
  rw [if_neg h]

/-! ## The claims -/

/-- Claim C1: `CanFinalize` holds exactly when both the absolute floor
(`MinCheckpointSigners = 5` approvals) and the integer-truncating percentage
threshold (`CheckpointThreshold = 67`) hold; 4-of-4 and 5-of-10 do not
finalize, 7-of-10 does. -/
theorem C1_canFinalize_iff :
    (∀ (c : Checkpoint) (totalActiveMiners : Nat),
        c.CanFinalize totalActiveMiners = true ↔
          5 ≤ c.minerApprovals.length ∧
            67 ≤ c.minerApprovals.length * 100 / totalActiveMiners) ∧
      (cpApprovals 4).CanFinalize 4 = false ∧
      (cpApprovals 5).CanFinalize 10 = false ∧
      (cpApprovals 7).CanFinalize 10 = true := by
  refine ⟨fun c t => ?_, by decide, by decide, by decide⟩
  simp only [Checkpoint.CanFinalize, Checkpoint.ApprovalPercentage,
    MinCheckpointSigners, CheckpointThreshold, Bool.and_eq_true,
    decide_eq_true_eq]
  by_cases ht : t = 0
  · subst ht
    simp
  · simp [ht]

/-- Witness for C1 at a fresh quorum point: 6 approvals of 8 miners. -/
theorem C1_canFinalize_iff_witness : (cpApprovals 6).CanFinalize 8 = true :=
  (C1_canFinalize_iff.1 (cpApprovals 6) 8).mpr ⟨by decide, by decide⟩

/-- Claim C10: `ApprovalPercentage` guards the zero-miner case (returning 0
rather than dividing), and `CanFinalize` is false for every checkpoint when
the registered-miner count is 0. -/
theorem C10_zero_total_guard :
    (∀ c : Checkpoint, c.ApprovalPercentage 0 = 0) ∧
      (∀ (c : Checkpoint) (t : Nat), t ≠ 0 →
          c.ApprovalPercentage t = c.minerApprovals.length * 100 / t) ∧
      ∀ c : Checkpoint, c.CanFinalize 0 = false := by
  refine ⟨fun c => rfl, fun c t ht => ?_, fun c => ?_⟩
  · simp [Checkpoint.ApprovalPercentage, ht]
  · simp [Checkpoint.CanFinalize, Checkpoint.ApprovalPercentage,
      CheckpointThreshold]

/-- Witness for C10 at a concrete division. -/
theorem C10_zero_total_guard_witness :
    (cpApprovals 1).ApprovalPercentage 2 = 50 := by
  rw [C10_zero_total_guard.2.1 (cpApprovals 1) 2 (by decide)]
  decide

/-- Claim C9: `ComputeCheckpointHash` reads the docking jobs only through
their count, so two checkpoints agreeing on height, block hash, validator-set
hash and job count hash identically even with entirely different job
contents. -/
theorem C9_hash_job_count_only :
    (∀ c c' : Checkpoint, c.height = c'.height → c.blockHash = c'.blockHash →
        c.validatorSetHash = c'.validatorSetHash →
        c.dockingJobs.length = c'.dockingJobs.length →
        c.ComputeCheckpointHash = c'.ComputeCheckpointHash) ∧
      cpJobsA.ComputeCheckpointHash = cpJobsB.ComputeCheckpointHash := by
  constructor
  · intro c c' h1 h2 h3 h4
    unfold Checkpoint.ComputeCheckpointHash
    rw [h1, h2, h3, h4]
  · rfl

/-- Witness for C9: the swapped-jobs checkpoint hashes like the original. -/
theorem C9_hash_job_count_only_witness :
    cpJobsA.ComputeCheckpointHash = cpJobsC.ComputeCheckpointHash :=
  C9_hash_job_count_only.1 cpJobsA cpJobsC rfl rfl rfl rfl

/-- Claim C4: on each tick the expiry pass turns a tracked pending checkpoint
strictly older than 100 blocks (and still `PENDING`) into a persisted
`EXPIRED` checkpoint, and leaves a younger one untouched; through the
end-of-block hook, a checkpoint created at height 200 is still `PENDING` at
heights 299 and 300 and `EXPIRED` at height 301. -/
theorem C4_expiry :
    (∀ (s : ChainState) (T : Int) (cp : Checkpoint),
        getPendingCheckpoint s = some cp →
        cp.status = CheckpointStatus.pending →
        T - cp.height > 100 →
        getCheckpoint (expireOldCheckpoints s T) cp.height =
          some { cp with status := CheckpointStatus.expired }) ∧
      (∀ (s : ChainState) (T : Int) (cp : Checkpoint),
          getPendingCheckpoint s = some cp →
          ¬(T - cp.height > 100 ∧ cp.status = CheckpointStatus.pending) →
          expireOldCheckpoints s T = s) ∧
      (∀ (s : ChainState) (T : Int) (bh vh : String) (now : Nat)
          (cp : Checkpoint),
          getPendingCheckpoint s = some cp →
          cp.status = CheckpointStatus.pending →
          T - cp.height > 100 →
          ¬(T % CheckpointInterval = 0 ∧ 0 < T) →
          getCheckpoint (EndBlocker s T bh vh now) cp.height =
            some { cp with status := CheckpointStatus.expired }) ∧
      ((getCheckpoint (EndBlocker sBind 299 "b" "v" 9) 200).map
          fun cp => cp.status) = some CheckpointStatus.pending ∧
      ((getCheckpoint (EndBlocker sBind 300 "b" "v" 9) 200).map
          fun cp => cp.status) = some CheckpointStatus.pending ∧
      ((getCheckpoint (EndBlocker sBind 301 "b" "v" 9) 200).map
          fun cp => cp.status) = some CheckpointStatus.expired := by
  refine ⟨fun s T cp hp hst hT => expire_of_old hp hst hT,
    fun s T cp hp h => expire_of_young hp h,
    fun s T bh vh now cp hp hst hT hni => ?_,
    by decide, by decide, by decide⟩
  unfold EndBlocker
  simp only
  rw [if_neg hni]
  exact expire_of_old hp hst hT

/-- Claim C3 counterexample: slashing a miner whose reputation is exactly 200
leaves reputation 0 but does NOT set the slashed flag, against the claim that
a resulting reputation of 0 always comes with `slashed = true`. -/
theorem C3_slash_at_200_counterexample :
    ((getMiner (SlashMiner s200 "carol" "invalid_result") "carol").map
      fun m => (m.reputation, m.slashed)) = some (0, false) := by decide

/-- Claim C3 (amended): `SlashMiner` subtracts 200 whenever reputation is at
least 200 — leaving `slashed` untouched even when the result is exactly 0 —
and otherwise floors reputation at 0 and sets `slashed`; a failed result
verification inside `SubmitMinerApproval` applies exactly this penalty and
rejects the submission. -/
theorem C3_slash_amended :
    (∀ (s : ChainState) (address reason : String) (m : Miner),
        getMiner s address = some m → m.address = address →
        getMiner (SlashMiner s address reason) address =
          some (if 200 ≤ m.reputation
                then { m with reputation := m.reputation - 200 }
                else { m with reputation := 0, slashed := true })) ∧
      (∀ (s : ChainState) (now : Nat) (approval : MinerApproval)
          (miner : Miner) (cp : Checkpoint) (e : VerifyError),
          getMiner s approval.minerAddress = some miner →
          miner.CanParticipate = true →
          getPendingCheckpoint s = some cp →
          approval.checkpointHash = cp.ComputeCheckpointHash →
          VerifyDockingResult approval.dockingResult cp = Except.error e →
          SubmitMinerApproval s now approval =
            (SlashMiner s approval.minerAddress "invalid_result",
             Except.error (SubmitError.invalidDockingResult e))) := by
  constructor
  · intro s address reason m hm ha
    unfold SlashMiner
    rw [hm]
    simp only
    by_cases h200 : 200 ≤ m.reputation
    · simp only [if_pos h200]
      rw [getMiner_setMiner,
        if_pos (show ({ m with reputation := m.reputation - 200 } : Miner).address
          = address from ha)]
    · simp only [if_neg h200]
      rw [getMiner_setMiner,
        if_pos (show ({ m with reputation := 0, slashed := true } : Miner).address
          = address from ha)]
  · intro s now approval miner cp e hm he hp hh hv
    exact submit_verify_error hm he hp hh hv

/-- Witness for the amended C3: slashing at 200 and at 500, and the slash
triggered by a bad docking result. -/
theorem C3_slash_amended_witness :
    ((getMiner (SlashMiner s200 "carol" "r2") "carol").map
        fun m => (m.reputation, m.slashed)) = some (0, false) ∧
      SubmitMinerApproval sBind 9 apBadResult =
        (SlashMiner sBind "alice" "invalid_result",
         Except.error (SubmitError.invalidDockingResult
           VerifyError.resultHashMismatch)) := by
  constructor
  · rw [C3_slash_amended.1 s200 "carol" "r2" minerR200 rfl rfl]
    decide
  · exact C3_slash_amended.2 sBind 9 apBadResult minerA cp200
      VerifyError.resultHashMismatch rfl rfl rfl rfl rfl

/-- Claim C5: the checkpoint hash is a function of exactly height, block
hash, validator-set hash and job count; the approval pipeline rejects with
`checkpointHashMismatch` precisely when the carried hash differs from the
pending checkpoint's recomputed hash; and the hashes at a different height
or block hash concretely differ. -/
theorem C5_checkpoint_hash_binding :
    (∀ c : Checkpoint, c.ComputeCheckpointHash =
        specCheckpointHashOf c.height c.blockHash c.validatorSetHash
          c.dockingJobs.length) ∧
      (∀ (s : ChainState) (now : Nat) (approval : MinerApproval)
          (miner : Miner) (cp : Checkpoint),
          getMiner s approval.minerAddress = some miner →
          miner.CanParticipate = true →
          getPendingCheckpoint s = some cp →
          approval.checkpointHash ≠ cp.ComputeCheckpointHash →
          SubmitMinerApproval s now approval =
            (s, Except.error SubmitError.checkpointHashMismatch)) ∧
      (∀ (s : ChainState) (now : Nat) (approval : MinerApproval)
          (miner : Miner) (cp : Checkpoint),
          getMiner s approval.minerAddress = some miner →
          miner.CanParticipate = true →
          getPendingCheckpoint s = some cp →
          approval.checkpointHash = cp.ComputeCheckpointHash →
          (SubmitMinerApproval s now approval).2 ≠
            Except.error SubmitError.checkpointHashMismatch) ∧
      cpOtherHeight.ComputeCheckpointHash ≠ cp200.ComputeCheckpointHash ∧
      cpOtherBlock.ComputeCheckpointHash ≠ cp200.ComputeCheckpointHash := by
  have hOtherHeight :
      cpOtherHeight.ComputeCheckpointHash ≠ cp200.ComputeCheckpointHash := by
    decide
  have hOtherBlock :
      cpOtherBlock.ComputeCheckpointHash ≠ cp200.ComputeCheckpointHash := by
    decide
  refine ⟨checkpointHash_eq_specOf,
    fun s now approval miner cp hm he hp hne =>
      submit_hash_mismatch hm he hp hne,
    fun s now approval miner cp hm he hp hh => ?_,
    hOtherHeight, hOtherBlock⟩
  cases hv : VerifyDockingResult approval.dockingResult cp with
  | error e =>
      rw [submit_verify_error hm he hp hh hv]
      simp
  | ok u =>
      cases u
      cases hdup : cp.minerApprovals.any
          (fun ex => ex.minerAddress == approval.minerAddress) with
      | true =>
          rw [submit_duplicate hm he hp hh hv hdup]
          simp
      | false =>
          rw [submit_fresh hm he hp hh hv hdup]
          simp only
          rw [apply_ite Prod.snd]
          simp

/-- Witness for C5: an approval carrying the hash of the height-100
checkpoint is rejected while `cp200` is pending. -/
theorem C5_checkpoint_hash_binding_witness :
    SubmitMinerApproval sBind 7 apStale =
      (sBind, Except.error SubmitError.checkpointHashMismatch) :=
  C5_checkpoint_hash_binding.2.1 sBind 7 apStale minerA cp200 rfl rfl rfl
    C5_checkpoint_hash_binding.2.2.2.1

/-- Claim C6: `VerifyDockingResult` fails `jobNotInCheckpoint` exactly when
no checkpoint job carries the result's job id, otherwise fails
`resultHashMismatch` exactly when the result hash differs from the single
SHA-256 pass over the separator-joined fields, and succeeds otherwise. -/
theorem C6_verify_docking_result :
    ∀ (result : DockingResult) (checkpoint : Checkpoint),
      (VerifyDockingResult result checkpoint =
          Except.error VerifyError.jobNotInCheckpoint ↔
        ∀ job ∈ checkpoint.dockingJobs, job.jobID ≠ result.jobID) ∧
      (VerifyDockingResult result checkpoint =
          Except.error VerifyError.resultHashMismatch ↔
        (∃ job ∈ checkpoint.dockingJobs, job.jobID = result.jobID) ∧
          result.resultHash ≠ specResultHash result) ∧
      (VerifyDockingResult result checkpoint = Except.ok () ↔
        (∃ job ∈ checkpoint.dockingJobs, job.jobID = result.jobID) ∧
          result.resultHash = specResultHash result) := by
  intro result checkpoint
  unfold VerifyDockingResult
  rw [computeResultHash_eq_spec]
  by_cases hjob : ∃ job ∈ checkpoint.dockingJobs, job.jobID = result.jobID
  · have hany : (checkpoint.dockingJobs.any
        fun job => job.jobID == result.jobID) = true := by
      simp only [List.any_eq_true, beq_iff_eq]
      exact hjob
    rw [if_pos hany]
    obtain ⟨j, hj, hjid⟩ := hjob
    by_cases hhash : result.resultHash = specResultHash result
    · rw [if_pos hhash]
      refine ⟨iff_of_false (by simp) fun hall => hall j hj hjid,
        iff_of_false (by simp) ?_,
        iff_of_true rfl ⟨⟨j, hj, hjid⟩, hhash⟩⟩
      rintro ⟨-, hne⟩
      exact hne hhash
    · rw [if_neg hhash]
      refine ⟨iff_of_false (by simp) fun hall => hall j hj hjid,
        iff_of_true rfl ⟨⟨j, hj, hjid⟩, hhash⟩,
        iff_of_false (by simp) ?_⟩
      rintro ⟨-, hesh⟩
      exact hhash hesh
  · rw [if_neg (show ¬(checkpoint.dockingJobs.any
        fun job => job.jobID == result.jobID) = true from fun h =>
          hjob (by simpa [List.any_eq_true, beq_iff_eq] using h))]
    refine ⟨iff_of_true rfl fun job hjmem hjid => hjob ⟨job, hjmem, hjid⟩,
      iff_of_false (by simp) ?_, iff_of_false (by simp) ?_⟩
    · rintro ⟨hex, -⟩
      exact hjob hex
    · rintro ⟨hex, -⟩
      exact hjob hex

/-- Witness for C6: the honestly-hashed result for `job-1` verifies against
`cp200`. -/
theorem C6_verify_docking_result_witness :
    VerifyDockingResult resOk cp200 = Except.ok () :=
  (C6_verify_docking_result resOk cp200).2.2.mpr
    ⟨⟨job1, by simp [cp200], rfl⟩, rfl⟩

/-- Claim C7: no stored checkpoint of a reachable state ever holds two
approvals by the same miner address, and a resubmission by an
already-listed miner fails with `duplicateApproval`, leaving the whole state
(and hence the approval count) unchanged. -/
theorem C7_no_duplicate_approvals :
    (∀ s : ChainState, Reachable s → ∀ (h : Int) (cp : Checkpoint),
        getCheckpoint s h = some cp →
        (cp.minerApprovals.map fun ap => ap.minerAddress).Nodup) ∧
      (∀ (s : ChainState) (now : Nat) (approval : MinerApproval)
          (miner : Miner) (cp : Checkpoint),
          getMiner s approval.minerAddress = some miner →
          miner.CanParticipate = true →
          getPendingCheckpoint s = some cp →
          approval.checkpointHash = cp.ComputeCheckpointHash →
          VerifyDockingResult approval.dockingResult cp = Except.ok () →
          approval.minerAddress ∈
            cp.minerApprovals.map (fun ap => ap.minerAddress) →
          SubmitMinerApproval s now approval =
            (s, Except.error SubmitError.duplicateApproval)) := by
  constructor
  · exact fun s hr => (stateInv_reachable hr).2
  · intro s now approval miner cp hm he hp hh hv hmem
    apply submit_duplicate hm he hp hh hv
    simp only [List.mem_map] at hmem
    obtain ⟨ex, hex, hexa⟩ := hmem
    simp only [List.any_eq_true]
    exact ⟨ex, hex, by simp [hexa]⟩

/-- Witness for C7: `alice` resubmitting her already-recorded approval is
rejected with no state change. -/
theorem C7_no_duplicate_approvals_witness :
    SubmitMinerApproval sDup 9 apAlice =
      (sDup, Except.error SubmitError.duplicateApproval) :=
  C7_no_duplicate_approvals.2 sDup 9 apAlice minerA cpDup rfl rfl rfl rfl rfl
    (by decide)

/-- Claim C2 is refuted by the code: after finalization nothing clears the
`checkpoint:pending` pointer and `SubmitMinerApproval` never checks the
checkpoint's status, so a distinct, eligible, correctly-hashing miner's
submission against the FINALIZED checkpoint succeeds and is appended (the
checkpoint re-finalizes with 6 approvals) instead of being rejected. -/
theorem C2_finalized_checkpoint_still_accepts :
    cpFin.status = CheckpointStatus.finalized ∧
      getPendingCheckpoint sFin = some cpFin ∧
      (SubmitMinerApproval sFin 9 apM6).2 = Except.ok () ∧
      ((getCheckpoint (SubmitMinerApproval sFin 9 apM6).1 200).map
        fun cp => cp.minerApprovals.length) = some 6 ∧
      ((getCheckpoint (SubmitMinerApproval sFin 9 apM6).1 200).map
        fun cp => cp.status) = some CheckpointStatus.finalized := by
  have hv : VerifyDockingResult apM6.dockingResult cpFin = Except.ok () := rfl
  have heq := @submit_fresh sFin 9 apM6 (mkMiner "m6") cpFin rfl rfl rfl rfl
    hv rfl
  refine ⟨rfl, rfl, ?_, ?_, ?_⟩
  · rw [heq]
    rfl
  · rw [heq]
    rfl
  · rw [heq]
    rfl

/-- Claim C8: every miner of a reachable state has reputation at most 1000
(and, the reputation being a `uint64` counter, never below 0); registration
starts it at 500; a successful approval adds 10 capped at 1000; a slash
subtracts 200 or floors at 0. -/
theorem C8_reputation_bounds :
    (∀ s : ChainState, Reachable s → ∀ (a : String) (m : Miner),
        getMiner s a = some m → m.reputation ≤ 1000) ∧
      (∀ (s : ChainState) (address pubKey : String) (now : Nat),
          getMiner s address = none →
          ((getMiner (RegisterMiner s address pubKey now).1 address).map
            fun m => m.reputation) = some 500) ∧
      (∀ (s : ChainState) (now : Nat) (approval : MinerApproval)
          (miner : Miner),
          getMiner s approval.minerAddress = some miner →
          miner.address = approval.minerAddress →
          miner.reputation ≤ 1000 →
          (SubmitMinerApproval s now approval).2 = Except.ok () →
          ((getMiner (SubmitMinerApproval s now approval).1
              approval.minerAddress).map fun m => m.reputation) =
            some (min (miner.reputation + 10) 1000)) ∧
      (∀ (s : ChainState) (address reason : String) (m : Miner),
          getMiner s address = some m → m.address = address →
          ((getMiner (SlashMiner s address reason) address).map
            fun m => m.reputation) =
            some (if 200 ≤ m.reputation then m.reputation - 200 else 0)) := by
  refine ⟨fun s hr => (stateInv_reachable hr).1, ?_, ?_, ?_⟩
  · intro s address pubKey now hnone
    unfold RegisterMiner
    rw [hnone, if_neg (by simp)]
    simp only
    rw [getMiner_incrementMinerCount, getMiner_setMiner, if_pos rfl]
    rfl
  · intro s now approval miner hm ha hrep hok
    unfold SubmitMinerApproval at hok
    rw [hm] at hok
    simp only at hok
    by_cases he : miner.CanParticipate = true
    · rw [if_neg (by simp [he])] at hok
      cases hp : getPendingCheckpoint s with
      | none => rw [hp] at hok; simp at hok
      | some cp =>
          rw [hp] at hok
          simp only at hok
          by_cases hh : approval.checkpointHash = cp.ComputeCheckpointHash
          · rw [if_neg (fun hne => hne hh)] at hok
            cases hv : VerifyDockingResult approval.dockingResult cp with
            | error e => rw [hv] at hok; simp at hok
            | ok u =>
                cases u
                rw [hv] at hok
                simp only at hok
                cases hdup : cp.minerApprovals.any
                    (fun ex => ex.minerAddress == approval.minerAddress) with
                | true => rw [hdup] at hok; simp at hok
                | false =>
                    rw [submit_fresh hm he hp hh hv hdup]
                    simp only
                    have hmod : (miner.reputation + 10) % uint64Mod =
                        miner.reputation + 10 :=
                      Nat.mod_eq_of_lt (by unfold uint64Mod; omega)
                    rw [hmod]
                    have haCap : ({ miner with
                        jobsCompleted := (miner.jobsCompleted + 1) % uint64Mod,
                        lastActiveAt := now,
                        reputation := 1000 } : Miner).address =
                        approval.minerAddress := ha
                    have haInc : ({ miner with
                        jobsCompleted := (miner.jobsCompleted + 1) % uint64Mod,
                        lastActiveAt := now,
                        reputation := miner.reputation + 10 } : Miner).address =
                        approval.minerAddress := ha
                    split
                    · split
                      · rw [getMiner_finalizeCheckpoint, getMiner_setMiner,
                          if_pos haCap]
                        simp only [Option.map_some', Option.some.injEq]
                        omega
                      · rw [getMiner_saveCheckpoint, getMiner_setMiner,
                          if_pos haCap]
                        simp only [Option.map_some', Option.some.injEq]
                        omega
                    · split
                      · rw [getMiner_finalizeCheckpoint, getMiner_setMiner,
                          if_pos haInc]
                        simp only [Option.map_some', Option.some.injEq]
                        omega
                      · rw [getMiner_saveCheckpoint, getMiner_setMiner,
                          if_pos haInc]
                        simp only [Option.map_some', Option.some.injEq]
                        omega
          · rw [if_pos hh] at hok
            simp at hok
    · have hef : miner.CanParticipate = false := by simpa using he
      rw [if_pos (by simp [hef])] at hok
      simp at hok
  · intro s address reason m hm ha
    unfold SlashMiner
    rw [hm]
    simp only
    by_cases h200 : 200 ≤ m.reputation
    · simp only [if_pos h200]
      rw [getMiner_setMiner,
        if_pos (show ({ m with reputation := m.reputation - 200 } : Miner).address
          = address from ha)]
      simp [h200]
    · simp only [if_neg h200]
      rw [getMiner_setMiner,
        if_pos (show ({ m with reputation := 0, slashed := true } : Miner).address
          = address from ha)]
      simp [h200]

/-- Witness for C8: a freshly registered miner is in bounds at 500; a
successful approval moves `alice` from 500 to `min 510 1000`; slashing
`carol` at 200 lands on the 0 floor. -/
theorem C8_reputation_bounds_witness :
    (mkMiner "bob").reputation ≤ 1000 ∧
      ((getMiner (RegisterMiner initialState "bob" "pk" 0).1 "bob").map
        fun m => m.reputation) = some 500 ∧
      ((getMiner (SubmitMinerApproval sBind 5 apAlice).1 "alice").map
        fun m => m.reputation) = some (min (minerA.reputation + 10) 1000) ∧
      ((getMiner (SlashMiner s200 "carol" "r3") "carol").map
        fun m => m.reputation) =
        some (if 200 ≤ minerR200.reputation
          then minerR200.reputation - 200 else 0) :=
  ⟨C8_reputation_bounds.1 (RegisterMiner initialState "bob" "pk" 0).1
      (Reachable.register initialState "bob" "pk" 0 Reachable.init) "bob"
      (mkMiner "bob") rfl,
   C8_reputation_bounds.2.1 initialState "bob" "pk" 0 rfl,
   C8_reputation_bounds.2.2.1 sBind 5 apAlice minerA rfl rfl (by decide) rfl,
   C8_reputation_bounds.2.2.2 s200 "carol" "r3" minerR200 rfl rfl⟩

/-- Witness for C4 at the concrete pending store. -/
theorem C4_expiry_witness :
    getCheckpoint (expireOldCheckpoints sBind 301) cp200.height =
        some { cp200 with status := CheckpointStatus.expired } ∧
      expireOldCheckpoints sBind 300 = sBind ∧
      getCheckpoint (EndBlocker sBind 301 "b" "v" 9) cp200.height =
        some { cp200 with status := CheckpointStatus.expired } :=
  ⟨C4_expiry.1 sBind 301 cp200 rfl rfl (by decide),
   C4_expiry.2.1 sBind 300 cp200 rfl (by decide),
   C4_expiry.2.2.1 sBind 301 "b" "v" 9 cp200 rfl rfl (by decide) (by decide)⟩

end DualApproval
